import Mathlib

/-!
Shallow embedding of the working-memory session engine of the
cognitive-assessment backend (src/backend): the silence heuristic of
`STTService`, the no-response short-circuit of `LLMService`, the
`WorkingMemoryTaskHandler` state machine (phase emissions, the
audio-complete rendezvous with 30 s timeout, the evaluation gate and the
result store), the `_evaluate_working_memory_audio_background` pipeline of
`main.py`, and the `BaseTaskHandler.handle_connection` message loop.

External collaborators (ElevenLabs TTS, Whisper, the grading LLM) are opaque
function parameters; each embedded service records whether the external call
was made.  Stateful coroutines are embedded as explicit state-passing
functions that also return the ordered list of messages they emit; a wait on
the `audio_complete_event` is an explicit trace event whose outcome (signal
before the 30-unit deadline, or timeout at the deadline) is read off an
environment `Env : Nat -> Option Rat` giving, per wait, the arrival time of
the acknowledgement if one arrives.  In Python's asyncio a task can only be
preempted at an `await`, so the body of `add_evaluation_result` (check the
gate, mark it, append and send the result — no `await` in between) is one
atomic step; arbitrary interleavings of concurrent background evaluations
are therefore covered by arbitrary sequences of `add_evaluation_result`
commits.
-/

/-- Decode two bytes (little-endian) as a 16-bit signed sample, as
`struct.unpack('<...h', ...)` does in `STTService._is_silent`. -/
def toSigned16 (lo hi : Nat) : Int :=
  let v : Nat := lo + 256 * hi
  if v < 32768 then (v : Int) else (v : Int) - 65536

/-- Pair the byte stream into 16-bit samples; a trailing odd byte is dropped,
matching the `audio_bytes[:-1]` truncation in `_is_silent`. -/
def decodeSamples : List Nat → List Int
  | lo :: hi :: rest => toSigned16 lo hi :: decodeSamples rest
  | _ => []

/-- Sum of squared samples. -/
def sumSq (l : List Int) : Int :=
  (l.map (fun s => s * s)).sum

/-- The RMS comparison of `_is_silent` in exact arithmetic:
`rms < 0.002` with `rms = sqrt((Σ (s/32768)^2) / n)` is equivalent to
`Σ s^2 * 250000 < n * 2^30` (both sides nonnegative, `0.002^2 = 1/250000`,
`32768^2 = 2^30`).  Returns `true` when no full sample remains. -/
def silentCore (bytes : List Nat) : Bool :=
  let samples := decodeSamples bytes
  if samples.length = 0 then true
  else decide (sumSq samples * 250000 < (samples.length : Int) * 1073741824)

/-- `STTService._is_silent` (threshold 0.002): short audio is silent; a
buffer longer than 4 bytes starting with `RIFF` has its 44-byte WAV header
stripped (and is silent if shorter than 44 bytes); then the RMS of the
16-bit little-endian samples is compared against the threshold. -/
def isSilent (bytes : List Nat) : Bool :=
  if bytes.length < 2 then true
  else if bytes.length > 4 ∧ bytes.take 4 = [82, 73, 70, 70] then
    if bytes.length < 44 then true
    else silentCore (bytes.drop 44)
  else silentCore bytes

/-- `STTService.transcribe_audio`, with the external Whisper call abstracted
as `whisper`.  Returns the transcript and whether the external call was
made: silent audio short-circuits to the empty transcript with no call. -/
def transcribe_audio (whisper : List Nat → String) (audio : List Nat) :
    String × Bool :=
  if isSilent audio then ("", false)
  else (whisper audio, true)

/-- Verdict structure returned by
`LLMService.evaluate_working_memory_response`. -/
structure EvalOutcome where
  correct_words : List String
  score : ℚ
  is_correct : Bool
  confidence : ℚ
  notes : String
deriving Repr, DecidableEq

/-- The canonical no-response verdict returned for an empty/blank
transcript. -/
def noResponseResult : EvalOutcome :=
  { correct_words := []
    score := 0
    is_correct := false
    confidence := 1
    notes := "No response detected - user remained silent" }

/-- `LLMService.evaluate_working_memory_response`, with the external LLM
call abstracted as `grader`.  Returns the verdict and whether the external
call was made: an empty or all-whitespace transcript short-circuits to
`noResponseResult` with no call. -/
def evaluate_working_memory_response
    (grader : List String → String → EvalOutcome)
    (words : List String) (transcript : String) : EvalOutcome × Bool :=
  if transcript = "" ∨ transcript.trim = "" then (noResponseResult, false)
  else (grader words transcript, true)

/-- Transcription followed by grading, as composed in
`_evaluate_working_memory_audio_background`; the two booleans record
whether the external transcription call and the external grading call were
made. -/
def evalPipelineOutcome (whisper : List Nat → String)
    (grader : List String → String → EvalOutcome)
    (words : List String) (audio : List Nat) :
    EvalOutcome × Bool × Bool :=
  let t := transcribe_audio whisper audio
  let e := evaluate_working_memory_response grader words t.1
  (e.1, t.2, e.2)

/-- `models.messages.EvaluationResult`, restricted to the fields the
working-memory task fills in. -/
structure EvaluationResult where
  trial_number : Int
  words : List String
  transcript : String
  correct_words : List String
  score : ℚ
  is_correct : Bool
  confidence : ℚ
  notes : String
deriving Repr, DecidableEq

/-- Outcome of one wait on the audio-complete rendezvous: either the client
acknowledgement arrived after `elapsed` time units, or the wait timed out at
the deadline. -/
inductive WaitOutcome
  | signaled (elapsed : ℚ)
  | timedOut (elapsed : ℚ)
deriving Repr, DecidableEq

/-- One outbound message (or resolved wait) of the engine, in emission
order. -/
inductive Emission
  | stateTransition (phase : String) (trial : Option Int) (msg : Option String)
  | ttsAudio (text : String) (trial : Option Int)
  | waited (w : WaitOutcome)
  | wordDisplay (word : String) (trial : Int) (index : Nat)
  | taskState (state : String) (trial : Option Int) (msg : Option String)
  | evaluationResult (r : EvaluationResult)
  | allResults (rs : List EvaluationResult)
  | debug (msg : String)
deriving Repr, DecidableEq

/-- Mutable state of one `WorkingMemoryTaskHandler` (the fields the claims
depend on; the `waiting_for_audio_complete` flag is omitted because no
branch of the handler reads it). -/
structure HandlerState where
  trial_number : Int
  trial_words : List (List String)
  completion_sent : Bool
  evaluated_trials : List Int
  evaluation_results : List EvaluationResult
  current_phase : String
deriving Repr, DecidableEq

/-- Handler state as built by `WorkingMemoryTaskHandler.__init__`. -/
def initHandlerState : HandlerState :=
  { trial_number := 0
    trial_words := []
    completion_sent := false
    evaluated_trials := []
    evaluation_results := []
    current_phase := "waiting" }

/-- Arguments of one `add_evaluation_result` commit. -/
structure EvalCall where
  trial_number : Int
  words : List String
  transcript : String
  outcome : EvalOutcome
deriving Repr, DecidableEq

/-- The `EvaluationResult` built inside `add_evaluation_result`. -/
def mkResult (c : EvalCall) : EvaluationResult :=
  { trial_number := c.trial_number
    words := c.words
    transcript := c.transcript
    correct_words := c.outcome.correct_words
    score := c.outcome.score
    is_correct := c.outcome.is_correct
    confidence := c.outcome.confidence
    notes := c.outcome.notes }

/-- `WorkingMemoryTaskHandler.add_evaluation_result`: reject trial numbers
outside {1, 2}; skip trials already in the evaluation gate; otherwise mark
the gate, store the result (base-class append) and send it to the client.
The whole body runs with no `await` between the gate check and the store,
so it is one atomic step of the asyncio loop. -/
def add_evaluation_result (st : HandlerState) (c : EvalCall) :
    HandlerState × List Emission :=
  if ¬ (c.trial_number = 1 ∨ c.trial_number = 2) then (st, [])
  else if c.trial_number ∈ st.evaluated_trials then (st, [])
  else
    let r := mkResult c
    ({ st with
        evaluated_trials := st.evaluated_trials ++ [c.trial_number]
        evaluation_results := st.evaluation_results ++ [r] },
      [Emission.evaluationResult r])

/-- Final handler state after a sequence of `add_evaluation_result`
commits (covering duplicate and concurrent background evaluations, since
each commit is atomic). -/
def runEvalCalls (st : HandlerState) (calls : List EvalCall) : HandlerState :=
  calls.foldl (fun s c => (add_evaluation_result s c).1) st

/-- Number of stored results for trial `t`. -/
def countFor (st : HandlerState) (t : Int) : Nat :=
  st.evaluation_results.countP (fun r => r.trial_number == t)

/-- `BaseTaskHandler.send_all_results`: mark the phase complete and emit the
task-state message followed by the aggregate result list, exactly in stored
order. -/
def sendAllResults (st : HandlerState) : HandlerState × List Emission :=
  ({ st with current_phase := "complete" },
    [Emission.taskState "complete" none (some "Task completed!"),
     Emission.allResults st.evaluation_results])

/-- `_evaluate_working_memory_audio_background` of `main.py`: the guarded
background evaluation pipeline for one upload.  Returns the new handler
state, the emissions, and the number of external transcription and grading
calls made. -/
def evaluateBackground (whisper : List Nat → String)
    (grader : List String → String → EvalOutcome)
    (st : HandlerState) (tn : Int) (audio : List Nat) :
    HandlerState × List Emission × Nat × Nat :=
  if ¬ (tn = 1 ∨ tn = 2) then (st, [], 0, 0)
  else if tn ∈ st.evaluated_trials then (st, [], 0, 0)
  else
    let t := transcribe_audio whisper audio
    let stt : Nat := if t.2 then 1 else 0
    if 0 < tn ∧ tn ≤ (st.trial_words.length : Int) then
      if tn ∈ st.evaluated_trials then (st, [], stt, 0)
      else
        let words := st.trial_words.getD (tn - 1).toNat []
        let e := evaluate_working_memory_response grader words t.1
        let llm : Nat := if e.2 then 1 else 0
        let a := add_evaluation_result st
          { trial_number := tn, words := words, transcript := t.1,
            outcome := e.1 }
        (a.1, a.2, stt, llm)
    else (st, [], stt, 0)

/-- The fixed word set `_select_trial_words` returns for every trial. -/
def FIXED_WORDS : List String := ["chair", "book", "hand", "road", "cloud"]

/-- `WORKING_MEMORY_SCRIPT["instruction"]`. -/
def instructionText : String :=
  "We'll start with the Working Memory Task. For this task, I will read you 5 words. After I finish, I want you to repeat these words back to me in the same order that you heard them. We will repeat this for two trials., and you'll have 10 seconds to respond each time. Here are the words:"

/-- `WORKING_MEMORY_SCRIPT["trial_2_intro"]`. -/
def trial2IntroText : String :=
  "Well done, now let's do that one more time. Again, you'll have 10 seconds to respond. Here are the words:"

/-- `WORKING_MEMORY_SCRIPT["prompt"]`. -/
def promptText : String := "Now you repeat them."

/-- `WORKING_MEMORY_SCRIPT["completion"]`. -/
def completionText : String :=
  "Great job! You've completed the working memory task."

/-- Acknowledgement environment: for the `i`-th wait of the session, the
time at which the client's `audio_complete` arrives, if it ever does. -/
def Env : Type := Nat → Option ℚ

/-- The timeout passed to `asyncio.wait_for` in `send_tts_audio`
(30.0 seconds). -/
def waitDeadline : ℚ := 30

/-- Resolution of one wait on the rendezvous: the signal wins if it arrives
strictly before the deadline, otherwise the wait times out at the
deadline.  A timeout is not an error: the caller proceeds either way. -/
def resolveWait (env : Env) (i : Nat) : WaitOutcome :=
  match env i with
  | some t => if t < waitDeadline then WaitOutcome.signaled t
              else WaitOutcome.timedOut waitDeadline
  | none => WaitOutcome.timedOut waitDeadline

/-- Engine state: the handler fields plus the index of the next wait on the
rendezvous. -/
structure EngineS where
  h : HandlerState
  widx : Nat
deriving Repr, DecidableEq

/-- Engine state at connection time. -/
def initEngineS : EngineS := { h := initHandlerState, widx := 0 }

/-- `WorkingMemoryTaskHandler.send_tts_audio`: reset the rendezvous, emit
the synthesized audio, then block until the acknowledgement or the
30-unit deadline. -/
def sendTTS (env : Env) (s : EngineS) (text : String) (trial : Option Int) :
    EngineS × List Emission :=
  ({ s with widx := s.widx + 1 },
    [Emission.ttsAudio text trial, Emission.waited (resolveWait env s.widx)])

/-- `_send_instruction`: instruction display transition, instruction
playing transition, then the instruction audio with its wait. -/
def sendInstruction (env : Env) (s : EngineS) : EngineS × List Emission :=
  let s1 : EngineS := { s with h := { s.h with current_phase := "instruction" } }
  let a := sendTTS env s1 instructionText (some 0)
  (a.1,
    [Emission.stateTransition "instruction_display" (some 0) (some instructionText),
     Emission.stateTransition "instruction_playing" (some 0) none]
    ++ a.2)

/-- `_start_task`: assign the fixed word script to both trials, then run
the instruction sequence. -/
def startTask (env : Env) (s : EngineS) : EngineS × List Emission :=
  sendInstruction env
    { s with h := { s.h with trial_words := [FIXED_WORDS, FIXED_WORDS] } }

/-- `_send_completion`: a no-op once `completion_sent` is set; otherwise
set the flag and emit the completion transition, the completion audio with
its wait, the terminal `complete` transition, and the aggregate results
via `send_all_results`. -/
def sendCompletion (env : Env) (s : EngineS) : EngineS × List Emission :=
  if s.h.completion_sent then (s, [])
  else
    let s1 : EngineS := { s with h := { s.h with completion_sent := true } }
    let a := sendTTS env s1 completionText none
    let b := sendAllResults a.1.h
    ({ a.1 with h := b.1 },
      [Emission.stateTransition "completion_playing" none (some completionText)]
      ++ a.2
      ++ [Emission.stateTransition "complete" none none]
      ++ b.2)

/-- `_send_trial_words`: guard against exhausted trials, then the strictly
sequential per-trial script — trial-2 intro (transition, audio, wait), the
`words_displaying` transition, one display event per word, the
`words_playing` transition, the words audio with its wait, the display
clear, the prompt (transition, audio, wait), and the `beep_start` and
`recording` markers. -/
def sendTrialWords (env : Env) (s : EngineS) (k : Int) :
    EngineS × List Emission :=
  if k > (s.h.trial_words.length : Int) then sendCompletion env s
  else
    let words := s.h.trial_words.getD (k - 1).toNat []
    let s1 : EngineS :=
      { s with h := { s.h with current_phase := "trial_" ++ toString k,
                               trial_number := k } }
    let intro :=
      if k = 2 then
        let a := sendTTS env s1 trial2IntroText (some k)
        (a.1,
          Emission.stateTransition "trial_intro_playing" (some k)
            (some trial2IntroText) :: a.2)
      else (s1, ([] : List Emission))
    let displays := words.enum.map
      (fun p => Emission.wordDisplay p.2 k (p.1 + 1))
    let wtts := sendTTS env intro.1 (String.intercalate ". " words ++ ".") (some k)
    let ptts := sendTTS env wtts.1 promptText (some k)
    (ptts.1,
      intro.2
      ++ [Emission.stateTransition "words_displaying" (some k) none]
      ++ displays
      ++ [Emission.stateTransition "words_playing" (some k) none]
      ++ wtts.2
      ++ [Emission.wordDisplay "" k 0,
          Emission.stateTransition "prompt_playing" (some k) (some promptText)]
      ++ ptts.2
      ++ [Emission.stateTransition "beep_start" (some k) none,
          Emission.stateTransition "recording" (some k) none])

/-- The branch `_handle_audio_upload` takes after an upload: which trial's
words to send next, or the completion path. -/
inductive Dispatch
  | words (k : Int)
  | completion
deriving Repr, DecidableEq

/-- The dispatch decision of `_handle_audio_upload`: trial 0 (the
instruction acknowledgement) dispatches trial 1, trial 1 dispatches
trial 2, and every other trial number falls to the completion path.  It is
a function of the uploaded trial number alone — no engine counter and no
evaluation state enters the decision. -/
def uploadDispatch (tn : Int) : Dispatch :=
  if tn = 0 then Dispatch.words 1
  else if tn = 1 then Dispatch.words 2
  else Dispatch.completion

/-- `_handle_audio_upload`: for a real recording (`tn > 0`) emit the
`beep_end` and `recording_complete` markers, then run the dispatched next
step.  The uploaded bytes take no part in sequencing (they go to the
background evaluation pipeline instead). -/
def handleAudioUpload (env : Env) (s : EngineS) (tn : Int)
    (_audio : List Nat) : EngineS × List Emission :=
  let pre : List Emission :=
    if tn > 0 then
      [Emission.stateTransition "beep_end" (some tn) none,
       Emission.stateTransition "recording_complete" (some tn) none]
    else []
  let a :=
    match uploadDispatch tn with
    | Dispatch.words k => sendTrialWords env s k
    | Dispatch.completion => sendCompletion env s
  (a.1, pre ++ a.2)

/-- The environment in which no acknowledgement ever arrives. -/
def noAck : Env := fun _ => none

/-- A complete 2-trial session: start, then uploads for trials 0, 1, 2, in
the order the client produces them; the trace is the concatenation of the
four steps' emissions. -/
def fullSession (env : Env) : EngineS × List Emission :=
  let a := startTask env initEngineS
  let b := handleAudioUpload env a.1 0 []
  let c := handleAudioUpload env b.1 1 []
  let d := handleAudioUpload env c.1 2 []
  (d.1, a.2 ++ b.2 ++ c.2 ++ d.2)

/-- Recognize a resolved wait in a trace. -/
def isWaited : Emission → Bool
  | Emission.waited _ => true
  | _ => false

/-- Engine state right after `_start_task` finishes (it does not depend on
the acknowledgement environment). -/
def postStart : EngineS := (startTask noAck initEngineS).1

/-- Engine state right after the instruction upload (trial 0) finishes. -/
def postUpload0 : EngineS := (handleAudioUpload noAck postStart 0 []).1

/-- Inbound client events recognized by the message loop of
`BaseTaskHandler.handle_connection`. -/
inductive ClientEvent
  | start_task
  | end_session
  | audio_complete
deriving Repr, DecidableEq

/-- Loop state: the engine plus the `task_started` local of
`handle_connection`. -/
structure LoopS where
  eng : EngineS
  task_started : Bool
deriving Repr, DecidableEq

/-- Loop state when the connection opens. -/
def initLoopS : LoopS := { eng := initEngineS, task_started := false }

/-- One iteration of the message loop: `start_task` begins the scripted
flow only when not already started (otherwise nothing is emitted and no
state changes); `end_session` emits the farewell debug line and breaks the
loop; `audio_complete` signals the rendezvous (captured by the wait
environment) and emits nothing.  The third component is whether the loop
continues. -/
def loopStep (env : Env) (s : LoopS) (ev : ClientEvent) :
    LoopS × List Emission × Bool :=
  match ev with
  | ClientEvent.start_task =>
      if s.task_started then (s, [], true)
      else
        let a := startTask env s.eng
        ({ eng := a.1, task_started := true },
          Emission.debug "Task start received, beginning scripted flow..." :: a.2,
          true)
  | ClientEvent.end_session =>
      (s, [Emission.debug "Session ended by client"], false)
  | ClientEvent.audio_complete => (s, [], true)

/-- Run the message loop over a list of inbound events, stopping early at
`end_session`. -/
def runLoop (env : Env) : LoopS → List ClientEvent → LoopS × List Emission
  | s, [] => (s, [])
  | s, ev :: rest =>
      let a := loopStep env s ev
      if a.2.2 then
        let b := runLoop env a.1 rest
        (b.1, a.2.1 ++ b.2)
      else (a.1, a.2.1)

/-- The debug line emitted exactly when the scripted flow begins. -/
def isStartMarker (e : Emission) : Bool :=
  e == Emission.debug "Task start received, beginning scripted flow..."

/-- Recognize the terminal `complete` state transition. -/
def isCompleteTransition (e : Emission) : Bool :=
  e == Emission.stateTransition "complete" none none

/-- Trace of `n` successive invocations of `_send_completion` (e.g. from
duplicated uploads of the final trial). -/
def repeatCompletion (env : Env) : EngineS → Nat → List Emission
  | _, 0 => []
  | s, n + 1 =>
      let a := sendCompletion env s
      a.2 ++ repeatCompletion env a.1 n

/-- A commit call with the given trial number, transcript "chair", as a
concrete instance for counterexamples and witnesses. -/
def evCall (t : Int) : EvalCall :=
  { trial_number := t
    words := FIXED_WORDS
    transcript := "chair"
    outcome := noResponseResult }

/-- A handler state whose evaluation gate already contains trial 1. -/
def gatedState : HandlerState :=
  { initHandlerState with evaluated_trials := [1] }

/-- An engine state whose completion flag is already set. -/
def sentEngineS : EngineS :=
  { h := { initHandlerState with completion_sent := true }, widx := 0 }

/-- A loop state that has already started the task. -/
def startedLoopS : LoopS := { eng := postStart, task_started := true }

/-- Invariant of the evaluation gate and result store: each trial id enters
the gate at most once, every stored result's trial id is in the gate, and
each trial id has at most one stored result. -/
def GateInv (st : HandlerState) : Prop :=
  (∀ t : Int, st.evaluated_trials.count t ≤ 1) ∧
  (∀ r ∈ st.evaluation_results, r.trial_number ∈ st.evaluated_trials) ∧
  (∀ t : Int, countFor st t ≤ 1)

/-- The trial id carried by the first `words_displaying` transition of a
trace: which trial's content an upload dispatched. -/
def firstWordsTrial (l : List Emission) : Option Int :=
  (l.filterMap (fun e =>
    match e with
    | Emission.stateTransition p t _ =>
        if p = "words_displaying" then t else none
    | _ => none)).head?

theorem add_eval_gate_mono (st : HandlerState) (c : EvalCall) :
    ∀ x ∈ st.evaluated_trials,
      x ∈ ((add_evaluation_result st c).1).evaluated_trials := by
  intro x hx
  unfold add_evaluation_result
  split
  · exact hx
  split
  · exact hx
  · simp only [List.mem_append]
    exact Or.inl hx


theorem gateInv_step (st : HandlerState) (c : EvalCall) (h : GateInv st) :
    GateInv (add_evaluation_result st c).1 := by
  obtain ⟨hg, hm, hc⟩ := h
  unfold add_evaluation_result
  split
  · exact ⟨hg, hm, hc⟩
  split
  · exact ⟨hg, hm, hc⟩
  rename_i h12 hnotmem
  refine ⟨?_, ?_, ?_⟩
  · intro t
    by_cases ht : t = c.trial_number
    · subst ht
      have h0 : st.evaluated_trials.count c.trial_number = 0 :=
        List.count_eq_zero.mpr hnotmem
      simp [List.count_append, h0]
    · have h1 : List.count t [c.trial_number] = 0 := by
        rw [List.count_eq_zero]
        simp only [List.mem_singleton]
        exact ht
      simp only [List.count_append, h1, Nat.add_zero]
      exact hg t
  · intro r hr
    simp only [List.mem_append] at hr
    rcases hr with h1 | h2
    · exact List.mem_append_left _ (hm r h1)
    · have hr2 : r = mkResult c := by simpa using h2
      subst hr2
      simp [mkResult]
  · intro t
    simp only [countFor, List.countP_append]
    by_cases ht : c.trial_number = t
    · have h0 : st.evaluation_results.countP (fun r => r.trial_number == t) = 0 := by
        rw [List.countP_eq_zero]
        intro r hr
        simp only [beq_iff_eq]
        intro heq
        exact hnotmem (by rw [ht, ← heq]; exact hm r hr)
      simp [h0, mkResult, ht]
    · have h1 : List.countP (fun r => r.trial_number == t) [mkResult c] = 0 := by
        simp [mkResult, ht]
      simp only [h1, Nat.add_zero]
      exact hc t

theorem gateInv_init : GateInv initHandlerState := by
  refine ⟨?_, ?_, ?_⟩ <;> simp [initHandlerState, countFor]

theorem runEvalCalls_cons (st : HandlerState) (c : EvalCall)
    (rest : List EvalCall) :
    runEvalCalls st (c :: rest) = runEvalCalls (add_evaluation_result st c).1 rest := rfl

theorem gateInv_run (calls : List EvalCall) (st : HandlerState)
    (h : GateInv st) : GateInv (runEvalCalls st calls) := by
  induction calls generalizing st with
  | nil => exact h
  | cons c rest ih =>
      rw [runEvalCalls_cons]
      exact ih _ (gateInv_step st c h)

theorem mem_gate_run (calls : List EvalCall) (st : HandlerState) (x : Int)
    (hx : x ∈ st.evaluated_trials) :
    x ∈ (runEvalCalls st calls).evaluated_trials := by
  induction calls generalizing st with
  | nil => exact hx
  | cons c rest ih =>
      rw [runEvalCalls_cons]
      exact ih _ (add_eval_gate_mono st c x hx)

theorem runEvalCalls_append (st : HandlerState) (l1 l2 : List EvalCall) :
    runEvalCalls st (l1 ++ l2) = runEvalCalls (runEvalCalls st l1) l2 := by
  simp [runEvalCalls, List.foldl_append]

/-- Claim C1: over every sequence of `handle_upload`/evaluation commits
(duplicate or concurrent — each `add_evaluation_result` body runs without
an intervening `await`, so any interleaving is a sequence of commits), at
most one evaluation result is ever stored for a trial id, the evaluation
gate admits a trial id at most once and membership is never removed, and
once a trial id is in the gate a further evaluation call neither stores
nor sends anything. -/
theorem c1_eval_gate_at_most_once (calls : List EvalCall) (t : Int) :
    countFor (runEvalCalls initHandlerState calls) t ≤ 1 ∧
    (runEvalCalls initHandlerState calls).evaluated_trials.count t ≤ 1 ∧
    (∀ extra : List EvalCall, ∀ x : Int,
        x ∈ (runEvalCalls initHandlerState calls).evaluated_trials →
        x ∈ (runEvalCalls initHandlerState (calls ++ extra)).evaluated_trials) ∧
    (∀ st : HandlerState, ∀ c : EvalCall,
        c.trial_number ∈ st.evaluated_trials →
        add_evaluation_result st c = (st, [])) := by
  have hinv := gateInv_run calls initHandlerState gateInv_init
  refine ⟨hinv.2.2 t, hinv.1 t, ?_, ?_⟩
  · intro extra x hx
    rw [runEvalCalls_append]
    exact mem_gate_run extra _ x hx
  · intro st c hcmem
    unfold add_evaluation_result
    split
    · rfl
    · simp [hcmem]

/-- Witness for C1 at a duplicated commit for trial 1 and a gate already
containing trial 1. -/
theorem c1_eval_gate_at_most_once_witness :
    countFor (runEvalCalls initHandlerState [evCall 1, evCall 1]) 1 ≤ 1 ∧
    add_evaluation_result gatedState (evCall 1) = (gatedState, []) :=
  ⟨(c1_eval_gate_at_most_once [evCall 1, evCall 1] 1).1,
   (c1_eval_gate_at_most_once [evCall 1, evCall 1] 1).2.2.2 gatedState (evCall 1)
     (by decide)⟩

/-- Counterexample to claim C2: if the background evaluation of trial 2
commits before that of trial 1 (background completions may arrive in any
order), the stored list — and hence the aggregate `send_all_results`
payload, which emits the stored list verbatim — is `[trial 2, trial 1]`,
not ordered by trial id. -/
theorem c2_aggregate_order_counterexample :
    (runEvalCalls initHandlerState [evCall 2, evCall 1]).evaluation_results.map
        (fun r => r.trial_number) = [2, 1] ∧
    Emission.allResults
        (runEvalCalls initHandlerState [evCall 2, evCall 1]).evaluation_results ∈
      (sendAllResults (runEvalCalls initHandlerState [evCall 2, evCall 1])).2 ∧
    ([2, 1] : List Int) ≠ [1, 2] := by
  refine ⟨rfl, ?_, by decide⟩
  simp [sendAllResults]

/-- Claim C2 (amended): the aggregate list emitted at completion is the
result store in append order — the order in which background evaluations
committed — not sorted by trial id; `send_all_results` emits the stored
list verbatim, and it equals `[trial 1, trial 2]` exactly when trial 1's
evaluation committed first. -/
theorem c2_aggregate_append_order (st : HandlerState) (c : EvalCall) :
    (((add_evaluation_result st c).1).evaluation_results = st.evaluation_results ∨
      ((add_evaluation_result st c).1).evaluation_results
        = st.evaluation_results ++ [mkResult c]) ∧
    Emission.allResults st.evaluation_results ∈ (sendAllResults st).2 ∧
    (runEvalCalls initHandlerState [evCall 1, evCall 2]).evaluation_results.map
        (fun r => r.trial_number) = [1, 2] := by
  refine ⟨?_, by simp [sendAllResults], rfl⟩
  unfold add_evaluation_result
  split
  · exact Or.inl rfl
  split
  · exact Or.inl rfl
  · exact Or.inr rfl

/-- Claim C3: empty or silence-classified audio short-circuits the
pipeline to the canonical no-response verdict (incorrect, confidence 1.0,
the "No response detected" note, no correct words, score 0.0) with neither
the external transcription call nor the external grading call being
made. -/
theorem c3_silent_audio_no_response (whisper : List Nat → String)
    (grader : List String → String → EvalOutcome)
    (words : List String) (audio : List Nat)
    (h : audio = [] ∨ isSilent audio = true) :
    evalPipelineOutcome whisper grader words audio
        = (noResponseResult, false, false) ∧
    noResponseResult.is_correct = false ∧
    noResponseResult.confidence = 1 ∧
    noResponseResult.correct_words = [] ∧
    noResponseResult.score = 0 ∧
    noResponseResult.notes = "No response detected - user remained silent" := by
  have hs : isSilent audio = true := by
    rcases h with h | h
    · subst h; decide
    · exact h
  refine ⟨?_, rfl, rfl, rfl, rfl, rfl⟩
  simp [evalPipelineOutcome, transcribe_audio, hs,
        evaluate_working_memory_response]

/-- Witness for C3 at zero-length audio with nontrivial collaborator
stubs. -/
theorem c3_silent_audio_no_response_witness :
    (([] : List Nat) = [] ∨ isSilent [] = true) ∧
    evalPipelineOutcome (fun _ => "chair book") (fun _ _ => noResponseResult)
        FIXED_WORDS [] = (noResponseResult, false, false) :=
  ⟨Or.inl rfl,
   (c3_silent_audio_no_response (fun _ => "chair book")
      (fun _ _ => noResponseResult) FIXED_WORDS [] (Or.inl rfl)).1⟩

/-- Claim C4: a trial id outside 1..2 makes the background evaluation
entry point return silently — no transcription call, no grading call, no
stored result, no emission, and no error escapes (the function returns
normally with the state unchanged). -/
theorem c4_out_of_range_trial_rejected (whisper : List Nat → String)
    (grader : List String → String → EvalOutcome)
    (st : HandlerState) (tn : Int) (audio : List Nat)
    (h : tn < 1 ∨ 2 < tn) :
    evaluateBackground whisper grader st tn audio = (st, [], 0, 0) := by
  have h12 : ¬ (tn = 1 ∨ tn = 2) := by omega
  unfold evaluateBackground
  rw [if_pos h12]

/-- Witness for C4 at trial id 7. -/
theorem c4_out_of_range_trial_rejected_witness :
    ((7 : Int) < 1 ∨ (2 : Int) < 7) ∧
    evaluateBackground (fun _ => "chair") (fun _ _ => noResponseResult)
        initHandlerState 7 [] = (initHandlerState, [], 0, 0) :=
  ⟨Or.inr (by decide),
   c4_out_of_range_trial_rejected (fun _ => "chair")
     (fun _ _ => noResponseResult) initHandlerState 7 [] (Or.inr (by decide))⟩

/-- Claim C5: for a supplied trial id `k` in 0..2 the upload handler
dispatches trial `k+1`'s content (or the completion path when `k = 2`),
and — because `uploadDispatch` reads nothing but the supplied trial id —
the trial whose content gets dispatched is the same from every engine
state (any phase, any internal trial counter, any evaluation-gate or
result-store contents), so duplicate or replayed uploads dispatch the same
next phase and the decision never waits on trial `k`'s evaluation. -/
theorem c5_upload_advances_by_trial_id (tn : Int) (h0 : 0 ≤ tn) (h2 : tn ≤ 2) :
    uploadDispatch tn
        = (if tn = 2 then Dispatch.completion else Dispatch.words (tn + 1)) ∧
    (∀ env : Env, ∀ s : EngineS, ∀ a : List Nat,
        2 ≤ s.h.trial_words.length → tn ≤ 1 →
        firstWordsTrial (handleAudioUpload env s tn a).2 = some (tn + 1)) := by
  constructor
  · interval_cases tn <;> decide
  · intro env s a hlen htn1
    have hcase : tn = 0 ∨ tn = 1 := by omega
    rcases hcase with rfl | rfl
    · have hg : ¬ ((1 : Int) > (s.h.trial_words.length : Int)) := by
        omega
      simp [handleAudioUpload, uploadDispatch, sendTrialWords, hg, sendTTS,
            firstWordsTrial, List.filterMap_append, List.filterMap_map,
            Function.comp]
    · have hg : ¬ ((2 : Int) > (s.h.trial_words.length : Int)) := by
        omega
      simp [handleAudioUpload, uploadDispatch, sendTrialWords, hg, sendTTS,
            firstWordsTrial, List.filterMap_append, List.filterMap_map,
            Function.comp]

/-- Witness for C5 at the instruction upload (trial id 0) on the engine
state reached after `_start_task`. -/
theorem c5_upload_advances_by_trial_id_witness :
    ((0 : Int) ≤ 0 ∧ (0 : Int) ≤ 2) ∧
    uploadDispatch 0 = Dispatch.words 1 ∧
    firstWordsTrial (handleAudioUpload noAck postStart 0 []).2 = some 1 := by
  have h := c5_upload_advances_by_trial_id 0 (by decide) (by decide)
  refine ⟨⟨by decide, by decide⟩, ?_, ?_⟩
  · simpa using h.1
  · simpa using h.2 noAck postStart [] (by decide) (by decide)

/-- Claim C6: when no playback acknowledgement ever arrives, every wait of
the full 2-trial session resolves by timeout exactly at the 30-unit
deadline (all seven waits), the session still reaches the terminal
`complete` transition, and the timeout is no error — the emitted message
sequence (waits aside) is identical under every acknowledgement
environment. -/
theorem c6_no_ack_timeouts_still_complete :
    (fullSession noAck).2.filter isWaited
        = List.replicate 7 (Emission.waited (WaitOutcome.timedOut waitDeadline)) ∧
    Emission.stateTransition "complete" none none ∈ (fullSession noAck).2 ∧
    (∀ env env' : Env,
        (fullSession env).2.filter (fun e => !(isWaited e))
          = (fullSession env').2.filter (fun e => !(isWaited e))) := by
  refine ⟨by decide, by decide, ?_⟩
  intro env env'
  rfl

/-- Claim C7: within one trial the emission sequence is strictly ordered —
trial 1 (from the post-start state) runs words_displaying, the five word
displays, words_playing, the words audio and its wait, the display clear,
prompt_playing, the prompt audio and its wait, beep_start, recording;
trial 2 (from the post-instruction-upload state) prefixes the intro
transition, intro audio and its wait.  Each wait event sits in the trace
before every later step, so no step starts until the previous wait has
resolved by signal or timeout. -/
theorem c7_trial_emission_order (env : Env) :
    (sendTrialWords env postStart 1).2 =
      [Emission.stateTransition "words_displaying" (some 1) none,
       Emission.wordDisplay "chair" 1 1,
       Emission.wordDisplay "book" 1 2,
       Emission.wordDisplay "hand" 1 3,
       Emission.wordDisplay "road" 1 4,
       Emission.wordDisplay "cloud" 1 5,
       Emission.stateTransition "words_playing" (some 1) none,
       Emission.ttsAudio "chair. book. hand. road. cloud." (some 1),
       Emission.waited (resolveWait env 1),
       Emission.wordDisplay "" 1 0,
       Emission.stateTransition "prompt_playing" (some 1) (some promptText),
       Emission.ttsAudio promptText (some 1),
       Emission.waited (resolveWait env 2),
       Emission.stateTransition "beep_start" (some 1) none,
       Emission.stateTransition "recording" (some 1) none] ∧
    (sendTrialWords env postUpload0 2).2 =
      [Emission.stateTransition "trial_intro_playing" (some 2) (some trial2IntroText),
       Emission.ttsAudio trial2IntroText (some 2),
       Emission.waited (resolveWait env 3),
       Emission.stateTransition "words_displaying" (some 2) none,
       Emission.wordDisplay "chair" 2 1,
       Emission.wordDisplay "book" 2 2,
       Emission.wordDisplay "hand" 2 3,
       Emission.wordDisplay "road" 2 4,
       Emission.wordDisplay "cloud" 2 5,
       Emission.stateTransition "words_playing" (some 2) none,
       Emission.ttsAudio "chair. book. hand. road. cloud." (some 2),
       Emission.waited (resolveWait env 4),
       Emission.wordDisplay "" 2 0,
       Emission.stateTransition "prompt_playing" (some 2) (some promptText),
       Emission.ttsAudio promptText (some 2),
       Emission.waited (resolveWait env 5),
       Emission.stateTransition "beep_start" (some 2) none,
       Emission.stateTransition "recording" (some 2) none] :=
  ⟨rfl, rfl⟩

theorem startTask_no_marker (env : Env) (s : EngineS) :
    (startTask env s).2.countP isStartMarker = 0 := by
  simp [startTask, sendInstruction, sendTTS, isStartMarker]

theorem runLoop_started_no_marker (env : Env) (msgs : List ClientEvent) :
    ∀ s : LoopS, s.task_started = true →
      (runLoop env s msgs).2.countP isStartMarker = 0 := by
  induction msgs with
  | nil => intro s h; simp [runLoop]
  | cons ev rest ih =>
      intro s h
      cases ev
      · simpa [runLoop, loopStep, h] using ih s h
      · simp [runLoop, loopStep]
        decide
      · simpa [runLoop, loopStep] using ih s h

theorem runLoop_marker_le_one (env : Env) (msgs : List ClientEvent) :
    ∀ s : LoopS, (runLoop env s msgs).2.countP isStartMarker ≤ 1 := by
  induction msgs with
  | nil => intro s; simp [runLoop]
  | cons ev rest ih =>
      intro s
      cases ev
      · by_cases h : s.task_started = true
        · simpa [runLoop, loopStep, h] using ih s
        · have h' : s.task_started = false := by
            simpa using h
          have hrest :
              (runLoop env ⟨(startTask env s.eng).1, true⟩ rest).2.countP
                  isStartMarker = 0 :=
            runLoop_started_no_marker env rest _ rfl
          simp [runLoop, loopStep, h', List.countP_append, List.countP_cons,
                startTask_no_marker, hrest, isStartMarker]
      · simp [runLoop, loopStep]
        decide
      · simpa [runLoop, loopStep] using ih s

/-- Claim C8: over any inbound message sequence only the first
`start_task` event begins the scripted flow (the flow-start debug line is
emitted at most once in the loop's whole trace), and a `start_task` event
arriving once `task_started` holds is a pure no-op: no emission, no state
change, the loop just continues. -/
theorem c8_start_idempotent (env : Env) (msgs : List ClientEvent) :
    (runLoop env initLoopS msgs).2.countP isStartMarker ≤ 1 ∧
    (∀ s : LoopS, s.task_started = true →
        loopStep env s ClientEvent.start_task = (s, [], true)) := by
  refine ⟨runLoop_marker_le_one env msgs initLoopS, ?_⟩
  intro s h
  simp [loopStep, h]

/-- Witness for C8 on a duplicated `start_task` sequence and an
already-started loop state. -/
theorem c8_start_idempotent_witness :
    (runLoop noAck initLoopS
        [ClientEvent.start_task, ClientEvent.start_task]).2.countP
        isStartMarker ≤ 1 ∧
    loopStep noAck startedLoopS ClientEvent.start_task
        = (startedLoopS, [], true) :=
  ⟨(c8_start_idempotent noAck [ClientEvent.start_task, ClientEvent.start_task]).1,
   (c8_start_idempotent noAck [ClientEvent.start_task, ClientEvent.start_task]).2
      startedLoopS rfl⟩

theorem sendCompletion_sets_flag (env : Env) (s : EngineS) :
    (sendCompletion env s).1.h.completion_sent = true := by
  unfold sendCompletion
  split
  · assumption
  · rfl

theorem sendCompletion_noop (env : Env) (s : EngineS)
    (h : s.h.completion_sent = true) : sendCompletion env s = (s, []) := by
  unfold sendCompletion
  rw [if_pos h]

theorem repeatCompletion_sent_nil (env : Env) (n : Nat) :
    ∀ s : EngineS, s.h.completion_sent = true →
      repeatCompletion env s n = [] := by
  induction n with
  | zero => intro s _; rfl
  | succ n ih =>
      intro s h
      simp [repeatCompletion, sendCompletion_noop env s h]
      exact ih s h

theorem sendCompletion_trace_count (env : Env) (s : EngineS)
    (h : s.h.completion_sent = false) :
    (sendCompletion env s).2.countP isCompleteTransition = 1 := by
  unfold sendCompletion
  rw [if_neg (by simp [h])]
  simp [sendTTS, sendAllResults, isCompleteTransition, List.countP_append,
        List.countP_cons]

theorem repeatCompletion_count_le_one (env : Env) (n : Nat) :
    ∀ s : EngineS,
      (repeatCompletion env s n).countP isCompleteTransition ≤ 1 := by
  induction n with
  | zero => intro s; simp [repeatCompletion]
  | succ n ih =>
      intro s
      by_cases h : s.h.completion_sent = true
      · simpa [repeatCompletion, sendCompletion_noop env s h] using ih s
      · have h' : s.h.completion_sent = false := by simpa using h
        have hrest :
            repeatCompletion env (sendCompletion env s).1 n = [] :=
          repeatCompletion_sent_nil env n _ (sendCompletion_sets_flag env s)
        simp [repeatCompletion, hrest, List.countP_append,
              sendCompletion_trace_count env s h']

/-- Claim C9: the terminal completion sequence is emitted at most once per
session — `_send_completion` sets `completion_sent` on its first run,
every invocation on a state with the flag set returns with no emission and
no state change, and any number of repeated invocations emits the terminal
`complete` transition at most once. -/
theorem c9_completion_at_most_once (env : Env) (s : EngineS) :
    (sendCompletion env s).1.h.completion_sent = true ∧
    (s.h.completion_sent = true → sendCompletion env s = (s, [])) ∧
    (∀ n : Nat,
        (repeatCompletion env s n).countP isCompleteTransition ≤ 1) :=
  ⟨sendCompletion_sets_flag env s,
   fun h => sendCompletion_noop env s h,
   fun n => repeatCompletion_count_le_one env n s⟩

/-- Witness for C9 on an engine whose completion flag is already set. -/
theorem c9_completion_at_most_once_witness :
    sentEngineS.h.completion_sent = true ∧
    sendCompletion noAck sentEngineS = (sentEngineS, []) :=
  ⟨rfl, (c9_completion_at_most_once noAck sentEngineS).2.1 rfl⟩

/-- Claim C10: every trial number other than 0 and 1 — negative ids and
ids beyond the script length alike — falls through `_handle_audio_upload`'s
`else` branch to the completion path; no check compares the uploaded id to
the engine's expected next trial, so a single such upload on a fresh
session emits the terminal completion sequence. -/
theorem c10_other_ids_complete (tn : Int) (h0 : tn ≠ 0) (h1 : tn ≠ 1) :
    uploadDispatch tn = Dispatch.completion ∧
    (∀ env : Env, ∀ a : List Nat,
        Emission.stateTransition "complete" none none
          ∈ (handleAudioUpload env initEngineS tn a).2) := by
  have hd : uploadDispatch tn = Dispatch.completion := by
    unfold uploadDispatch
    rw [if_neg h0, if_neg h1]
  refine ⟨hd, ?_⟩
  intro env a
  have htr : (handleAudioUpload env initEngineS tn a).2
      = (if tn > 0 then
            [Emission.stateTransition "beep_end" (some tn) none,
             Emission.stateTransition "recording_complete" (some tn) none]
          else [])
        ++ (sendCompletion env initEngineS).2 := by
    simp [handleAudioUpload, hd]
  rw [htr]
  refine List.mem_append.mpr (Or.inr ?_)
  simp [sendCompletion, sendTTS, sendAllResults, initEngineS, initHandlerState]

/-- Witness for C10 at the negative trial id -3. -/
theorem c10_other_ids_complete_witness :
    ((-3 : Int) ≠ 0 ∧ (-3 : Int) ≠ 1) ∧
    uploadDispatch (-3) = Dispatch.completion ∧
    Emission.stateTransition "complete" none none
      ∈ (handleAudioUpload noAck initEngineS (-3) []).2 := by
  have h := c10_other_ids_complete (-3) (by decide) (by decide)
  exact ⟨⟨by decide, by decide⟩, h.1, h.2 noAck []⟩
